import Mathlib

/-!
Verification development for the api-gen schema-to-interface renderer
(`src/main.rs`). The rendering core is embedded shallowly:

* `BTreeMap` values are embedded as key-sorted association lists; `mapOfList`
  models building a `BTreeMap` by inserting entries in document order
  (later duplicates overwrite earlier ones), which is how both
  `BTreeMap::from_iter` and serde map deserialization behave.
* Rust panics (`expect`, `todo!`) are embedded as `Except` failures carrying
  the panic message; the source has no typed error values.
* `heck::AsPascalCase` is embedded for ASCII input (the only casing the
  claims exercise); it follows heck's `transform` algorithm.
-/

/-- Embeds the Rust enum `ApiDocsModelObjectType` (src/main.rs lines 12-20). -/
inductive ApiDocsModelObjectType : Type where
  | string
  | number
  | boolean
  | object
  | array
  | enum
deriving DecidableEq

/-- Reduced stand-in for `serde_json::Value`: the renderer never reads the
`members` payload, so only a small inhabited type with distinguishable values
is needed to state claims about it. -/
inductive JsonValue : Type where
  | null
  | bool (b : Bool)
  | str (s : String)
deriving DecidableEq

/-- Embeds the Rust struct `ApiDocsModel` (src/main.rs lines 25-35).
`fields : Option<BTreeMap<String, ApiDocsModel>>` is embedded as an optional
key-sorted association list, `model : Option<Box<ApiDocsModel>>` as an
optional child, `members : Option<Vec<serde_json::Value>>` as an optional
list of opaque values. -/
inductive ApiDocsModel : Type where
  | mk : ApiDocsModelObjectType → Option (List (String × ApiDocsModel)) →
      Option ApiDocsModel → Option (List JsonValue) → Bool → ApiDocsModel

/-- The `type` field of the struct. -/
def ApiDocsModel.type : ApiDocsModel → ApiDocsModelObjectType
  | .mk t _ _ _ _ => t

/-- The `fields` field of the struct. -/
def ApiDocsModel.fields : ApiDocsModel → Option (List (String × ApiDocsModel))
  | .mk _ fs _ _ _ => fs

/-- The `model` field of the struct. -/
def ApiDocsModel.model : ApiDocsModel → Option ApiDocsModel
  | .mk _ _ m _ _ => m

/-- The `members` field of the struct. -/
def ApiDocsModel.members : ApiDocsModel → Option (List JsonValue)
  | .mk _ _ _ mem _ => mem

/-- The `required` field of the struct. -/
def ApiDocsModel.required : ApiDocsModel → Bool
  | .mk _ _ _ _ r => r

/-- A Rust panic, identified by its message. In the source every failure of
the rendering core is a panic (`expect` at lines 90 and 100, `todo!` at line
104): a panic aborts the process; the core defines no typed, catchable error
values. The constructor `typedError` is modelled from the spec (§7), which
postulates typed errors (`MissingSubschema`, `MissingFields`,
`UnsupportedKind`); the embedded code never constructs it, and it exists only
so that spec-level claims about typed errors can be stated and compared with
what the code does. -/
inductive RenderFailure : Type where
  | panic (msg : String)
  | typedError (name : String)
deriving DecidableEq

/-- The panic raised by `expect` when an `Array`-kind schema has no `model`
(src/main.rs line 90). The spec calls this condition `MissingSubschema`. -/
def missingSubschemaPanic : RenderFailure :=
  .panic ("`model` must be present if `type` is `\"array\"`")

/-- The panic raised by `expect` when an `Object`-kind schema has no `fields`
(src/main.rs line 100). The spec calls this condition `MissingFields`. -/
def missingFieldsPanic : RenderFailure :=
  .panic ("`fields` must be set if `type` is `\"object\"`.")

/-- The panic raised by `todo!()` on an `Enum`-kind schema (src/main.rs line
104). `todo!()` panics with the fixed message below; there is no
`UnsupportedKind` error value anywhere in the code. -/
def todoPanic : RenderFailure :=
  .panic ("not yet implemented")

/-- Scanner state of heck's `transform` word-splitting loop. -/
inductive WordMode : Type where
  | wordBoundary
  | lower
  | upper
deriving DecidableEq, BEq

/-- Splits a character list at non-alphanumeric characters, dropping the
delimiters; embeds Rust's `str::split(|c| !c.is_alphanumeric())` (for ASCII).
Empty segments are kept, as in Rust; they contribute no words. -/
def splitNonAlnum : List Char → List (List Char)
  | [] => [[]]
  | c :: cs =>
    if c.isAlphanum then
      match splitNonAlnum cs with
      | [] => [[c]]
      | w :: ws => (c :: w) :: ws
    else
      [] :: splitNonAlnum cs

/-- Splits one alphanumeric run at camel-case boundaries; embeds the scanning
loop of heck's `transform`: a boundary falls after a lowercase-mode character
followed by an uppercase one, and before the last of a run of uppercase
characters that is followed by a lowercase one. -/
def camelSplit : WordMode → List Char → List Char → List (List Char)
  | _, _, [] => []
  | _, acc, [c] => [acc ++ [c]]
  | mode, acc, c :: next :: rest =>
    let nextMode : WordMode :=
      if c.isLower then .lower else if c.isUpper then .upper else mode
    if nextMode == WordMode.lower && next.isUpper then
      (acc ++ [c]) :: camelSplit .wordBoundary [] (next :: rest)
    else if mode == WordMode.upper && c.isUpper && next.isLower then
      acc :: camelSplit .wordBoundary [c] (next :: rest)
    else
      camelSplit nextMode (acc ++ [c]) (next :: rest)

/-- heck's `capitalize`: first character uppercased, the rest lowercased. -/
def capitalizeWord : List Char → List Char
  | [] => []
  | c :: cs => c.toUpper :: cs.map Char.toLower

/-- Embeds `heck::AsPascalCase` (ASCII): split into words, capitalize each
word, concatenate with no separator. Used at src/main.rs line 136. -/
def toPascalCase (s : String) : String :=
  String.mk ((((splitNonAlnum s.data).map (camelSplit .wordBoundary [])).flatten.map
    capitalizeWord).flatten)

example : toPascalCase ("foo_bar") = "FooBar" := by decide
example : toPascalCase ("foo-bar") = "FooBar" := by decide
example : toPascalCase ("Foo") = "Foo" := by decide
example : toPascalCase ("fooBar") = "FooBar" := by decide
example : toPascalCase ("XMLHttp") = "XmlHttp" := by decide

/-- Inserts one binding into a key-sorted association list, keeping it sorted
and overwriting an existing binding with the same key; embeds
`BTreeMap::insert` observed through iteration order. -/
def keyInsert {α : Type} : List (String × α) → String → α → List (String × α)
  | [], k, v => [(k, v)]
  | (q, w) :: rest, k, v =>
    if k < q then (k, v) :: (q, w) :: rest
    else if k = q then (k, v) :: rest
    else (q, w) :: keyInsert rest k v

/-- Builds the association list of a `BTreeMap` from a sequence of entries in
document order: each entry is inserted in turn, later duplicates overwriting
earlier ones. This models `BTreeMap` construction by deserialization or
`from_iter`; the resulting list is the map's ascending-key iteration order. -/
def mapOfList {α : Type} (l : List (String × α)) : List (String × α) :=
  l.foldl (fun m kv => keyInsert m kv.1 kv.2) []

/-- Formats one field declaration line from the field name, the `required`
flag and the (fallible) rendered type: the body of `render_field`
(src/main.rs lines 114-120), split out so that the mutual recursion below is
structural. `opt` is `""` when required and `"?"` otherwise, exactly as
`model.required.then_some("").unwrap_or("?")`. -/
def render_field_line (name : String) (required : Bool) :
    Except RenderFailure String → Except RenderFailure String
  | .ok ty => .ok (name ++ (if required then "" else "?") ++ ": " ++ ty ++ ",")
  | .error e => .error e

mutual

/-- Embeds `render_field_type` (src/main.rs lines 79-112): computes the inner
type string by kind — recursing through `model` for arrays and through the
Fields Renderer for objects, panicking when the needed component is absent or
the kind is `Enum` — then wraps the result in `Optional<...>` when the schema
is not required. -/
def render_field_type : ApiDocsModel → Except RenderFailure String
  | .mk t fs m _ required =>
    let innerE : Except RenderFailure String :=
      match t, fs, m with
      | .string, _, _ => .ok ("string")
      | .number, _, _ => .ok ("number")
      | .boolean, _, _ => .ok ("boolean")
      | .array, _, some sub =>
        match render_field_type sub with
        | .ok s => .ok ("Array<" ++ s ++ ">")
        | .error e => .error e
      | .array, _, none => .error missingSubschemaPanic
      | .object, some flds, _ =>
        match render_fields flds with
        | .ok s => .ok ("\x7b " ++ s ++ " \x7d")
        | .error e => .error e
      | .object, none, _ => .error missingFieldsPanic
      | .enum, _, _ => .error todoPanic
    match innerE with
    | .ok inner => .ok (if required then inner else "Optional<" ++ inner ++ ">")
    | .error e => .error e
termination_by structural obj => obj

/-- Embeds `render_fields` (src/main.rs lines 122-126): renders each field in
the map's iteration order and concatenates; a panic in some field aborts the
whole rendering with no partial output. Each entry goes through
`render_field_line name mdl.required (render_field_type mdl)`, which is
definitionally `render_field name mdl` (defined below the mutual block). -/
def render_fields : List (String × ApiDocsModel) → Except RenderFailure String
  | [] => .ok ""
  | (name, mdl) :: rest =>
    match render_field_line name mdl.required (render_field_type mdl),
        render_fields rest with
    | .ok s, .ok srest => .ok (s ++ srest)
    | .error e, _ => .error e
    | .ok _, .error e => .error e
termination_by structural obj => obj

end

/-- Embeds `render_field` (src/main.rs lines 114-120): one field declaration
line, `?`-marked when not required, typed by `render_field_type`. -/
def render_field (name : String) (mdl : ApiDocsModel) : Except RenderFailure String :=
  render_field_line name mdl.required (render_field_type mdl)

/-- The cons equation of `render_fields`, restated through `render_field`
(the shape of the source, where `render_fields` maps `render_field` over the
entries and concatenates). -/
theorem render_fields_cons (name : String) (mdl : ApiDocsModel)
    (rest : List (String × ApiDocsModel)) :
    render_fields ((name, mdl) :: rest) =
      match render_field name mdl, render_fields rest with
      | .ok s, .ok srest => .ok (s ++ srest)
      | .error e, _ => .error e
      | .ok _, .error e => .error e := rfl

/-- Embeds `render_interface` (src/main.rs lines 128-130). -/
def render_interface (name : String) (obj : List (String × ApiDocsModel)) :
    Except RenderFailure String :=
  match render_fields obj with
  | .ok s => .ok ("interface " ++ name ++ " \x7b " ++ s ++ " \x7d")
  | .error e => .error e

/-- Embeds `render_interfaces` (src/main.rs lines 132-140): renders each model
of the catalog in the map's iteration order, pascal-casing its name, and
concatenates. -/
def render_interfaces : List (String × List (String × ApiDocsModel)) →
    Except RenderFailure String
  | [] => .ok ""
  | (modelName, mdl) :: rest =>
    match render_interface (toPascalCase modelName) mdl, render_interfaces rest with
    | .ok s, .ok srest => .ok (s ++ srest)
    | .error e, _ => .error e
    | .ok _, .error e => .error e

deriving instance DecidableEq for Except

/-- A scalar-or-leaf schema with no nested components. -/
def scalarModel (t : ApiDocsModelObjectType) (r : Bool) : ApiDocsModel :=
  .mk t none none none r

/-- Strict key order on association-list entries. -/
abbrev keyLt {α : Type} (a b : String × α) : Prop := a.1 < b.1

/-- Weak key order on association-list entries. -/
abbrev keyLe {α : Type} (a b : String × α) : Prop := a.1 ≤ b.1

/-- Concatenation of a list of strings with no separator. -/
def strConcat : List String → String
  | [] => ""
  | s :: rest => s ++ strConcat rest

instance {α : Type} : IsAntisymm (String × α) keyLt where
  antisymm _ _ h h2 := absurd h2 (lt_asymm h)

instance {α : Type} : IsTotal (String × α) keyLe where
  total a b := le_total a.1 b.1

instance {α : Type} : IsTrans (String × α) keyLe where
  trans _ _ _ h h2 := le_trans h h2

theorem mem_keyInsert {α : Type} (m : List (String × α)) (k : String) (v : α)
    (x : String × α) (h : x ∈ keyInsert m k v) : x = (k, v) ∨ x ∈ m := by
  induction m with
  | nil => simpa [keyInsert] using h
  | cons a rest ih =>
    obtain ⟨q, w⟩ := a
    by_cases h1 : k < q
    · simp only [keyInsert, if_pos h1] at h
      simpa using h
    · by_cases h2 : k = q
      · simp only [keyInsert, if_neg h1, if_pos h2] at h
        rcases List.mem_cons.mp h with h | h
        · exact Or.inl h
        · exact Or.inr (List.mem_cons_of_mem _ h)
      · simp only [keyInsert, if_neg h1, if_neg h2] at h
        rcases List.mem_cons.mp h with h | h
        · exact Or.inr (List.mem_cons.mpr (Or.inl h))
        · rcases ih h with h | h
          · exact Or.inl h
          · exact Or.inr (List.mem_cons_of_mem _ h)

theorem keyInsert_sorted {α : Type} (m : List (String × α)) (k : String) (v : α)
    (h : m.Pairwise keyLt) : (keyInsert m k v).Pairwise keyLt := by
  induction m with
  | nil => simp [keyInsert]
  | cons a rest ih =>
    obtain ⟨q, w⟩ := a
    rw [List.pairwise_cons] at h
    obtain ⟨hq, hrest⟩ := h
    by_cases h1 : k < q
    · simp only [keyInsert, if_pos h1]
      rw [List.pairwise_cons]
      refine ⟨?_, List.pairwise_cons.mpr ⟨hq, hrest⟩⟩
      intro b hb
      rcases List.mem_cons.mp hb with hb | hb
      · subst hb; exact h1
      · exact lt_trans h1 (hq b hb)
    · by_cases h2 : k = q
      · simp only [keyInsert, if_neg h1, if_pos h2]
        rw [List.pairwise_cons]
        refine ⟨?_, hrest⟩
        intro b hb
        have := hq b hb
        simpa [keyLt, h2] using this
      · simp only [keyInsert, if_neg h1, if_neg h2]
        rw [List.pairwise_cons]
        refine ⟨?_, ih hrest⟩
        intro b hb
        rcases mem_keyInsert rest k v b hb with hb | hb
        · subst hb
          exact lt_of_le_of_ne (le_of_not_lt h1) (Ne.symm h2)
        · exact hq b hb

theorem keyInsert_perm {α : Type} (m : List (String × α)) (k : String) (v : α)
    (h : k ∉ m.map Prod.fst) : (keyInsert m k v).Perm ((k, v) :: m) := by
  induction m with
  | nil => simp [keyInsert]
  | cons a rest ih =>
    obtain ⟨q, w⟩ := a
    simp only [List.map_cons, List.mem_cons] at h
    push_neg at h
    obtain ⟨hkq, hk⟩ := h
    by_cases h1 : k < q
    · simp [keyInsert, h1]
    · simp only [keyInsert, if_neg h1, if_neg hkq]
      exact (List.Perm.cons _ (ih hk)).trans (List.Perm.swap _ _ _)

theorem foldl_keyInsert_sorted {α : Type} (l : List (String × α)) :
    ∀ acc : List (String × α), acc.Pairwise keyLt →
      (l.foldl (fun m kv => keyInsert m kv.1 kv.2) acc).Pairwise keyLt := by
  induction l with
  | nil => intro acc h; simpa using h
  | cons a rest ih =>
    intro acc h
    simp only [List.foldl_cons]
    exact ih _ (keyInsert_sorted _ _ _ h)

theorem mapOfList_sorted {α : Type} (l : List (String × α)) :
    (mapOfList l).Pairwise keyLt :=
  foldl_keyInsert_sorted l [] (by simp)

theorem foldl_keyInsert_perm {α : Type} (l : List (String × α)) :
    ∀ acc : List (String × α), ((acc ++ l).map Prod.fst).Nodup →
      (l.foldl (fun m kv => keyInsert m kv.1 kv.2) acc).Perm (acc ++ l) := by
  induction l with
  | nil => intro acc h; simp
  | cons a rest ih =>
    intro acc h
    obtain ⟨k, v⟩ := a
    have hkacc : k ∉ acc.map Prod.fst := by
      intro hmem
      rw [List.map_append, List.nodup_append] at h
      exact h.2.2 hmem (by simp)
    have hperm1 : (keyInsert acc k v).Perm ((k, v) :: acc) :=
      keyInsert_perm _ _ _ hkacc
    have hperm2 : (keyInsert acc k v ++ rest).Perm (acc ++ (k, v) :: rest) :=
      (hperm1.append_right rest).trans List.perm_middle.symm
    have hnodup : ((keyInsert acc k v ++ rest).map Prod.fst).Nodup :=
      ((hperm2.map Prod.fst).nodup_iff).mpr h
    simp only [List.foldl_cons]
    exact (ih _ hnodup).trans hperm2

theorem mapOfList_perm {α : Type} (l : List (String × α))
    (h : (l.map Prod.fst).Nodup) : (mapOfList l).Perm l := by
  have := foldl_keyInsert_perm l [] (by simpa using h)
  simpa [mapOfList] using this

theorem sorted_key_perm_eq {α : Type} {l₁ l₂ : List (String × α)} (hp : l₁.Perm l₂)
    (h₁ : l₁.Pairwise keyLt) (h₂ : l₂.Pairwise keyLt) : l₁ = l₂ :=
  List.eq_of_perm_of_sorted hp h₁ h₂

theorem mapOfList_perm_eq {α : Type} {l₁ l₂ : List (String × α)} (hp : l₁.Perm l₂)
    (h : (l₁.map Prod.fst).Nodup) : mapOfList l₁ = mapOfList l₂ := by
  have h₂ : (l₂.map Prod.fst).Nodup := ((hp.map Prod.fst).nodup_iff).mp h
  exact sorted_key_perm_eq
    ((mapOfList_perm l₁ h).trans (hp.trans (mapOfList_perm l₂ h₂).symm))
    (mapOfList_sorted l₁) (mapOfList_sorted l₂)

theorem mapOfList_eq_insertionSort {α : Type} (l : List (String × α))
    (h : (l.map Prod.fst).Nodup) : mapOfList l = List.insertionSort keyLe l := by
  have hperm : (List.insertionSort keyLe l).Perm l := List.perm_insertionSort keyLe l
  have hsorted : (List.insertionSort keyLe l).Pairwise keyLe :=
    List.sorted_insertionSort keyLe l
  have hnodup : ((List.insertionSort keyLe l).map Prod.fst).Nodup :=
    ((hperm.map Prod.fst).nodup_iff).mpr h
  have hne : (List.insertionSort keyLe l).Pairwise (fun a b => a.1 ≠ b.1) := by
    rw [List.Nodup, List.pairwise_map] at hnodup
    exact hnodup
  have hstrict : (List.insertionSort keyLe l).Pairwise keyLt :=
    List.Pairwise.imp (fun h => lt_of_le_of_ne h.1 h.2) (hsorted.and hne)
  exact sorted_key_perm_eq ((mapOfList_perm l h).trans hperm.symm)
    (mapOfList_sorted l) hstrict
example : render_field_type (scalarModel .number false) = .ok ("Optional<number>") := by
  decide
example : render_field ("foo") (scalarModel .boolean false) =
    .ok ("foo?: Optional<boolean>,") := by decide
example : render_interfaces ([("Foo", [("baz", scalarModel .boolean true)])]) =
    .ok ("interface Foo \x7b baz: boolean, \x7d") := by decide

/-- `render_interface` as a functorial map over `render_fields`. -/
theorem render_interface_eq (name : String) (obj : List (String × ApiDocsModel)) :
    render_interface name obj = (render_fields obj).map
      (fun s => "interface " ++ name ++ " \x7b " ++ s ++ " \x7d") := by
  cases h : render_fields obj <;> simp [render_interface, h, Except.map]

/-- `render_fields` is the fail-fast concatenation of `render_field` applied
to each entry in list (= map iteration) order. -/
theorem render_fields_eq_mapM (m : List (String × ApiDocsModel)) :
    render_fields m =
      (m.mapM (fun kv => render_field kv.1 kv.2)).map strConcat := by
  induction m with
  | nil => rfl
  | cons a rest ih =>
    obtain ⟨name, mdl⟩ := a
    rw [render_fields_cons, List.mapM_cons, ih]
    cases hf : render_field name mdl <;>
      cases hr : rest.mapM (fun kv => render_field kv.1 kv.2) <;>
        simp [Except.map, Bind.bind, Except.bind, pure, Except.pure, strConcat]

/-- `render_interfaces` is the fail-fast concatenation, over the catalog
entries in list (= map iteration) order, of one interface declaration per
model, named by `toPascalCase`. -/
theorem render_interfaces_eq_mapM (c : List (String × List (String × ApiDocsModel))) :
    render_interfaces c =
      (c.mapM (fun kv => (render_fields kv.2).map
        (fun s => "interface " ++ toPascalCase kv.1 ++ " \x7b " ++ s ++ " \x7d"))).map
        strConcat := by
  induction c with
  | nil => rfl
  | cons a rest ih =>
    obtain ⟨name, mdl⟩ := a
    rw [List.mapM_cons]
    show (match render_interface (toPascalCase name) mdl, render_interfaces rest with
      | .ok s, .ok srest => Except.ok (s ++ srest)
      | .error e, _ => .error e
      | .ok _, .error e => .error e) = _
    rw [ih, render_interface_eq]
    cases hf : render_fields mdl <;>
      cases hr : rest.mapM (fun kv => (render_fields kv.2).map
          (fun s => "interface " ++ toPascalCase kv.1 ++ " \x7b " ++ s ++ " \x7d")) <;>
        simp [Except.map, Bind.bind, Except.bind, pure, Except.pure, strConcat]

/-- The scalar kinds of the schema model. -/
def isScalar (t : ApiDocsModelObjectType) : Prop :=
  t = .string ∨ t = .number ∨ t = .boolean

instance (t : ApiDocsModelObjectType) : Decidable (isScalar t) := by
  unfold isScalar; infer_instance

/-- The bare lowercase type name of a scalar kind. -/
def scalarName : ApiDocsModelObjectType → String
  | .string => "string"
  | .number => "number"
  | .boolean => "boolean"
  | _ => ""

/-- The `Optional<...>` wrapping rule of the Type Renderer. -/
def optWrap : Bool → String → String
  | true, s => s
  | false, s => "Optional<" ++ s ++ ">"

/-- An `n`-fold nested `Array` schema: all levels below the outermost are
required, the innermost element is a scalar of kind `t`; the outermost level
carries the flag `r` (for `n = 0` the schema is the scalar itself with flag
`r`). -/
def nestedArraySchema : Nat → Bool → ApiDocsModelObjectType → ApiDocsModel
  | 0, r, t => scalarModel t r
  | n + 1, r, t => .mk .array none (some (nestedArraySchema n true t)) none r

example (fs : Option (List (String × ApiDocsModel))) (m : Option ApiDocsModel)
    (mem : Option (List JsonValue)) (r : Bool) :
    render_field_type (.mk .string fs m mem r) =
      .ok (if r then "string" else "Optional<string>") := by
  cases r <;> rfl

/-- A non-required schema renders as the required rendering wrapped in
`Optional<...>`: the wrapping at src/main.rs lines 107-111 is applied after
the inner type string is computed and only on success. -/
theorem render_field_type_not_required (t : ApiDocsModelObjectType)
    (fs : Option (List (String × ApiDocsModel))) (m : Option ApiDocsModel)
    (mem : Option (List JsonValue)) :
    render_field_type (.mk t fs m mem false) =
      (render_field_type (.mk t fs m mem true)).map
        (fun s => "Optional<" ++ s ++ ">") := by
  cases t <;> cases fs <;> cases m <;> try rfl
  case array.none.some sub =>
    cases hsub : render_field_type sub <;> simp [render_field_type, hsub, Except.map]
  case array.some.some flds sub =>
    cases hsub : render_field_type sub <;> simp [render_field_type, hsub, Except.map]
  case object.some.none flds =>
    cases hflds : render_fields flds <;> simp [render_field_type, hflds, Except.map]
  case object.some.some flds sub =>
    cases hflds : render_fields flds <;> simp [render_field_type, hflds, Except.map]

/-- Unfolding of the `Array`-with-element case of `render_field_type`. -/
theorem render_field_type_array_some (fs : Option (List (String × ApiDocsModel)))
    (mem : Option (List JsonValue)) (r : Bool) (sub : ApiDocsModel) :
    render_field_type (.mk .array fs (some sub) mem r) =
      match render_field_type sub with
      | .ok s => .ok (optWrap r ("Array<" ++ s ++ ">"))
      | .error e => .error e := by
  cases hsub : render_field_type sub <;> cases r <;>
    simp [render_field_type, hsub, optWrap]

/-- Unfolding of the `Object`-with-fields case of `render_field_type`. -/
theorem render_field_type_object_some (m : Option ApiDocsModel)
    (mem : Option (List JsonValue)) (r : Bool) (flds : List (String × ApiDocsModel)) :
    render_field_type (.mk .object (some flds) m mem r) =
      match render_fields flds with
      | .ok s => .ok (optWrap r ("\x7b " ++ s ++ " \x7d"))
      | .error e => .error e := by
  cases hflds : render_fields flds <;> cases r <;>
    simp [render_field_type, hflds, optWrap]

/-- C2: for every Schema of scalar kind `String`, `Number` or `Boolean` —
whatever its other components — the Type Renderer returns exactly `string`,
`number` or `boolean` respectively when required, and `Optional<string>`,
`Optional<number>` or `Optional<boolean>` respectively when not required. -/
theorem c2_scalar_rendering (fs : Option (List (String × ApiDocsModel)))
    (m : Option ApiDocsModel) (mem : Option (List JsonValue)) (r : Bool) :
    (render_field_type (.mk .string fs m mem r) =
      .ok (if r then "string" else "Optional<string>")) ∧
    (render_field_type (.mk .number fs m mem r) =
      .ok (if r then "number" else "Optional<number>")) ∧
    (render_field_type (.mk .boolean fs m mem r) =
      .ok (if r then "boolean" else "Optional<boolean>")) := by
  refine ⟨?_, ?_, ?_⟩ <;> cases r <;> rfl

/-- C10: the Type Renderer output for a scalar-kind schema depends only on the
kind and the required flag: the `fields`, `model` and `members` components are
never read, so two scalar schemas agreeing on kind and flag render
identically, and a scalar schema violating the one-populated-component
invariant still renders without error. -/
theorem c10_scalar_output_independent_of_components (t : ApiDocsModelObjectType)
    (h : isScalar t) (fs₁ fs₂ : Option (List (String × ApiDocsModel)))
    (m₁ m₂ : Option ApiDocsModel) (mem₁ mem₂ : Option (List JsonValue)) (r : Bool) :
    render_field_type (.mk t fs₁ m₁ mem₁ r) = render_field_type (.mk t fs₂ m₂ mem₂ r) ∧
    ∃ out, render_field_type (.mk t fs₁ m₁ mem₁ r) = .ok out := by
  rcases h with h | h | h <;> subst h <;> cases r <;> exact ⟨rfl, _, rfl⟩

/-- Witness for C10 at kind `Boolean`: a schema with spuriously populated
`fields`, `model` and `members` renders the same as a bare one. -/
theorem c10_witness :
    isScalar .boolean ∧
    (render_field_type (.mk .boolean (some [("x", scalarModel .string true)])
        (some (scalarModel .string true)) (some [JsonValue.null]) false) =
      render_field_type (.mk .boolean none none (some [JsonValue.bool true]) false) ∧
    ∃ out, render_field_type (.mk .boolean (some [("x", scalarModel .string true)])
        (some (scalarModel .string true)) (some [JsonValue.null]) false) = .ok out) :=
  ⟨by decide, c10_scalar_output_independent_of_components .boolean (by decide)
    (some [("x", scalarModel .string true)]) none (some (scalarModel .string true)) none
    (some [JsonValue.null]) (some [JsonValue.bool true]) false⟩

/-- C4: the Field Renderer produces exactly `<name><marker>: <type>,` with the
marker empty when required and `?` otherwise and the type given by the Type
Renderer on the same schema; for a non-required schema the successful type is
always of the shape `Optional<...>`, so the `?` marker and the `Optional<...>`
wrapper always appear together; concretely, a required boolean `foo` renders
as `foo: boolean,` and a non-required one as `foo?: Optional<boolean>,`. -/
theorem c4_field_rendering :
    (∀ (name : String) (s : ApiDocsModel) (ty : String),
      render_field_type s = .ok ty →
      render_field name s =
        .ok (name ++ (if s.required then "" else "?") ++ ": " ++ ty ++ ",")) ∧
    (∀ (name : String) (t : ApiDocsModelObjectType)
      (fs : Option (List (String × ApiDocsModel))) (m : Option ApiDocsModel)
      (mem : Option (List JsonValue)) (ty : String),
      render_field_type (.mk t fs m mem false) = .ok ty →
      ∃ inner, ty = "Optional<" ++ inner ++ ">" ∧
        render_field name (.mk t fs m mem false) =
          .ok (name ++ "?" ++ ": " ++ ty ++ ",")) ∧
    render_field ("foo") (scalarModel .boolean true) = .ok ("foo: boolean,") ∧
    render_field ("foo") (scalarModel .boolean false) =
      .ok ("foo?: Optional<boolean>,") := by
  refine ⟨?_, ?_, by decide, by decide⟩
  · intro name s ty h
    unfold render_field
    rw [h]
    rfl
  · intro name t fs m mem ty h
    rw [render_field_type_not_required] at h
    cases hT : render_field_type (.mk t fs m mem true) with
    | error e => rw [hT] at h; exact absurd h (by simp [Except.map])
    | ok inner =>
      rw [hT] at h
      simp only [Except.map] at h
      injection h with h
      subst h
      refine ⟨inner, rfl, ?_⟩
      unfold render_field
      rw [render_field_type_not_required, hT]
      rfl

/-- Witness for C4: the universally quantified field-line shape applied to a
non-required string field named `qux`. -/
theorem c4_witness :
    render_field_type (scalarModel .string false) = .ok ("Optional<string>") ∧
    render_field ("qux") (scalarModel .string false) =
      .ok ("qux" ++ (if (scalarModel .string false).required then "" else "?") ++
        ": " ++ "Optional<string>" ++ ",") :=
  ⟨by decide, c4_field_rendering.1 ("qux") (scalarModel .string false)
    ("Optional<string>") (by decide)⟩

theorem strConcat_replicate_comm (n : Nat) (s : String) :
    strConcat (List.replicate n s) ++ s = s ++ strConcat (List.replicate n s) := by
  induction n with
  | zero => simp [strConcat]
  | succ n ih =>
    simp only [List.replicate_succ, strConcat, String.append_assoc]
    rw [ih]

theorem nestedArrayStringStep (n : Nat) (name : String) :
    "Array<" ++ (strConcat (List.replicate n "Array<") ++ name ++
      strConcat (List.replicate n ">")) ++ ">" =
      strConcat (List.replicate (n + 1) "Array<") ++ name ++
        strConcat (List.replicate (n + 1) ">") := by
  simp only [List.replicate_succ, strConcat, String.append_assoc]
  rw [strConcat_replicate_comm]

/-- C3: an `n`-fold nested `Array` schema whose inner levels are required and
whose innermost element is a scalar renders as `Array<` repeated `n` times
around the scalar's type name closed by `n` `>`s, wrapped in one outermost
`Optional<...>` exactly when the outermost schema is not required. -/
theorem c3_nested_array_rendering (n : Nat) (r : Bool) (t : ApiDocsModelObjectType)
    (h : isScalar t) :
    render_field_type (nestedArraySchema n r t) =
      .ok (optWrap r (strConcat (List.replicate n "Array<") ++ scalarName t ++
        strConcat (List.replicate n ">"))) := by
  induction n generalizing r with
  | zero =>
    rcases h with h | h | h <;> subst h <;> cases r <;> rfl
  | succ n ih =>
    show render_field_type (.mk .array none (some (nestedArraySchema n true t)) none r) = _
    rw [render_field_type_array_some, ih true]
    cases r
    · exact congrArg (fun s => Except.ok (optWrap false s))
        (nestedArrayStringStep n (scalarName t))
    · exact congrArg (fun s => Except.ok (optWrap true s))
        (nestedArrayStringStep n (scalarName t))

/-- Witness for C3: the spec's own example, a non-required array of required
array of required string, renders as `Optional<Array<Array<string>>>`. -/
theorem c3_witness :
    isScalar .string ∧
    render_field_type (nestedArraySchema 2 false .string) =
      .ok ("Optional<Array<Array<string>>>") :=
  ⟨by decide, (c3_nested_array_rendering 2 false .string (by decide)).trans (by decide)⟩

/-- C6: an `Object`-kind schema with a field mapping renders as `{ ` plus the
Fields Renderer output plus ` }` (wrapped in `Optional<...>` when not
required); with the mapping absent it fails with the `MissingFields` error
(the `expect` panic at src/main.rs line 100); an object whose fields are
`foo: string` and `bar: boolean`, both required, renders as
`{ bar: boolean,foo: string, }` whatever the insertion order. -/
theorem c6_object_rendering :
    (∀ (m : Option ApiDocsModel) (mem : Option (List JsonValue)) (r : Bool)
      (flds : List (String × ApiDocsModel)) (s : String),
      render_fields flds = .ok s →
      render_field_type (.mk .object (some flds) m mem r) =
        .ok (optWrap r ("\x7b " ++ s ++ " \x7d"))) ∧
    (∀ (m : Option ApiDocsModel) (mem : Option (List JsonValue)) (r : Bool),
      render_field_type (.mk .object none m mem r) = .error missingFieldsPanic) ∧
    render_field_type (.mk .object
      (some (mapOfList [("foo", scalarModel .string true),
        ("bar", scalarModel .boolean true)])) none none true) =
      .ok ("\x7b bar: boolean,foo: string, \x7d") := by
  refine ⟨?_, ?_, by simp +decide [mapOfList, keyInsert]⟩
  · intro m mem r flds s h
    rw [render_field_type_object_some, h]
  · intro m mem r
    rfl

/-- Witness for C6: the object case applied to a concrete one-field mapping. -/
theorem c6_witness :
    render_fields [("baz", scalarModel .boolean true)] = .ok ("baz: boolean,") ∧
    render_field_type (.mk .object (some [("baz", scalarModel .boolean true)])
      none none true) = .ok (optWrap true ("\x7b " ++ "baz: boolean," ++ " \x7d")) :=
  ⟨by decide, c6_object_rendering.1 none none true [("baz", scalarModel .boolean true)]
    ("baz: boolean,") (by decide)⟩

/-- C7: an `Array`-kind schema with an element schema renders as `Array<` plus
the recursively rendered element type plus `>` (wrapped in `Optional<...>`
when not required); with the element schema absent it fails with the
`MissingSubschema` error (the `expect` panic at src/main.rs line 90), and a
catalog containing such a schema renders to that error alone — the whole
rendering aborts with no partial output for the remaining fields or models. -/
theorem c7_array_rendering :
    (∀ (fs : Option (List (String × ApiDocsModel))) (mem : Option (List JsonValue))
      (r : Bool),
      render_field_type (.mk .array fs none mem r) = .error missingSubschemaPanic) ∧
    (∀ (fs : Option (List (String × ApiDocsModel))) (mem : Option (List JsonValue))
      (r : Bool) (sub : ApiDocsModel) (ty : String),
      render_field_type sub = .ok ty →
      render_field_type (.mk .array fs (some sub) mem r) =
        .ok (optWrap r ("Array<" ++ ty ++ ">"))) ∧
    (∀ (iname fname : String) (fs : Option (List (String × ApiDocsModel)))
      (mem : Option (List JsonValue)) (r : Bool)
      (rest : List (String × ApiDocsModel))
      (restc : List (String × List (String × ApiDocsModel))),
      render_interfaces ((iname, (fname, ApiDocsModel.mk .array fs none mem r) :: rest)
        :: restc) = .error missingSubschemaPanic) := by
  refine ⟨fun fs mem r => rfl, ?_, ?_⟩
  · intro fs mem r sub ty h
    rw [render_field_type_array_some, h]
  · intro iname fname fs mem r rest restc
    have hfield : render_fields
        ((fname, ApiDocsModel.mk .array fs none mem r) :: rest) =
        .error missingSubschemaPanic := by
      rw [render_fields_cons]
      rfl
    have hint : render_interface (toPascalCase iname)
        ((fname, ApiDocsModel.mk .array fs none mem r) :: rest) =
        .error missingSubschemaPanic := by
      rw [render_interface_eq, hfield]
      rfl
    simp only [render_interfaces]
    rw [hint]

/-- Witness for C7: the missing-element case at a concrete schema, and the
whole-catalog abort at a concrete two-model catalog whose first model has the
malformed array field followed by a well-formed field and model. -/
theorem c7_witness :
    render_field_type (.mk .array none none none true) = .error missingSubschemaPanic ∧
    (render_field_type (scalarModel .string true) = .ok ("string") ∧
      render_field_type (.mk .array none (some (scalarModel .string true)) none false) =
        .ok (optWrap false ("Array<" ++ "string" ++ ">"))) ∧
    render_interfaces ([("a", [("bad", ApiDocsModel.mk .array none none none true),
      ("good", scalarModel .string true)]), ("b", [("x", scalarModel .boolean true)])]) =
      .error missingSubschemaPanic :=
  ⟨c7_array_rendering.1 none none true,
    ⟨by decide, c7_array_rendering.2.1 none none false (scalarModel .string true)
      ("string") (by decide)⟩,
    c7_array_rendering.2.2 ("a") ("bad") none none true
      [("good", scalarModel .string true)] [("b", [("x", scalarModel .boolean true)])]⟩

/-- C8 counterexample: on an `Enum`-kind schema the renderer does not return a
typed, catchable `UnsupportedKind` error — it hits `todo!()` (src/main.rs line
104), a process-aborting panic with message `not yet implemented`. -/
theorem c8_counterexample :
    ¬ (render_field_type (scalarModel .enum true) =
      .error (.typedError ("UnsupportedKind"))) ∧
    render_field_type (scalarModel .enum true) = .error todoPanic := by
  exact ⟨by decide, by decide⟩

/-- C8 (amended): for every `Enum`-kind schema, rendering fails with the
`todo!()` panic — message `not yet implemented` — which aborts the process;
the code surfaces no catchable `UnsupportedKind` error value. -/
theorem c8_amended_enum_panics (t : ApiDocsModelObjectType)
    (fs : Option (List (String × ApiDocsModel))) (m : Option ApiDocsModel)
    (mem : Option (List JsonValue)) (r : Bool) (h : t = .enum) :
    render_field_type (.mk t fs m mem r) = .error todoPanic ∧
    todoPanic = .panic ("not yet implemented") := by
  subst h
  refine ⟨?_, rfl⟩
  cases fs <;> cases m <;> rfl

/-- Witness for the amended C8 at a bare enum schema. -/
theorem c8_witness :
    render_field_type (.mk .enum none none (some [JsonValue.str ("A")]) false) =
      .error todoPanic ∧
    todoPanic = .panic ("not yet implemented") :=
  c8_amended_enum_panics .enum none none (some [JsonValue.str ("A")]) false rfl

/-- C1: for every catalog (built by inserting entries in any order with
distinct keys), the Interfaces Renderer output is the concatenation, in
ascending catalog key order, of one declaration
`interface <Name> { <renderedFields> }` per model, where `<Name>` is the
catalog key converted to upper-camel-case; keys `foo_bar` and `foo-bar` both
become `FooBar`, and the catalog mapping `Foo` to the single required boolean
field `baz` renders to exactly `interface Foo { baz: boolean, }`. -/
theorem c1_interfaces_output (l : List (String × List (String × ApiDocsModel)))
    (h : (l.map Prod.fst).Nodup) :
    (render_interfaces (mapOfList l) =
      ((List.insertionSort keyLe l).mapM (fun kv => (render_fields kv.2).map
        (fun s => "interface " ++ toPascalCase kv.1 ++ " \x7b " ++ s ++ " \x7d"))).map
        strConcat) ∧
    toPascalCase ("foo_bar") = "FooBar" ∧
    toPascalCase ("foo-bar") = "FooBar" ∧
    render_interfaces ([("Foo", [("baz", scalarModel .boolean true)])]) =
      .ok ("interface Foo \x7b baz: boolean, \x7d") := by
  refine ⟨?_, by decide, by decide, by decide⟩
  rw [mapOfList_eq_insertionSort l h, render_interfaces_eq_mapM]

/-- Witness for C1: a two-model catalog inserted in descending key order
renders its interfaces in ascending key order with pascal-cased names. -/
theorem c1_witness :
    (([("foo_bar", [("x", scalarModel .string true)]),
      ("bar", ([] : List (String × ApiDocsModel)))].map Prod.fst).Nodup) ∧
    render_interfaces (mapOfList [("foo_bar", [("x", scalarModel .string true)]),
      ("bar", [])]) =
      .ok ("interface Bar \x7b  \x7dinterface FooBar \x7b x: string, \x7d") := by
  have h : (([("foo_bar", [("x", scalarModel .string true)]),
      ("bar", ([] : List (String × ApiDocsModel)))].map Prod.fst).Nodup) := by decide
  refine ⟨h, ?_⟩
  rw [(c1_interfaces_output _ h).1]
  simp +decide [List.insertionSort, List.orderedInsert]

/-- C5: for every model (built by inserting fields in any order with distinct
names), the Fields Renderer output is the concatenation, in ascending lexical
field-name order, of the Field Renderer output per entry, with no separator;
the empty model renders to the empty string. -/
theorem c5_fields_sorted_concat (l : List (String × ApiDocsModel))
    (h : (l.map Prod.fst).Nodup) :
    (render_fields (mapOfList l) =
      ((List.insertionSort keyLe l).mapM (fun kv => render_field kv.1 kv.2)).map
        strConcat) ∧
    render_fields ([] : List (String × ApiDocsModel)) = .ok ("") := by
  refine ⟨?_, rfl⟩
  rw [mapOfList_eq_insertionSort l h, render_fields_eq_mapM]

/-- Witness for C5: fields inserted as `foo` then `bar` render with `bar`
first. -/
theorem c5_witness :
    (([("foo", scalarModel .boolean true), ("bar", scalarModel .string true)].map
      Prod.fst).Nodup) ∧
    render_fields (mapOfList [("foo", scalarModel .boolean true),
      ("bar", scalarModel .string true)]) = .ok ("bar: string,foo: boolean,") := by
  have h : (([("foo", scalarModel .boolean true),
      ("bar", scalarModel .string true)].map Prod.fst).Nodup) := by decide
  refine ⟨h, ?_⟩
  rw [(c5_fields_sorted_concat _ h).1]
  simp +decide [List.insertionSort, List.orderedInsert]

/-- C9: the Interfaces Renderer is deterministic — it is a pure function of
the catalog, so two renderings of the same catalog are byte-identical; in
particular, catalogs built by inserting the same distinct-keyed entries in
any two orders render identically. -/
theorem c9_deterministic :
    (∀ c : List (String × List (String × ApiDocsModel)),
      render_interfaces c = render_interfaces c) ∧
    (∀ l₁ l₂ : List (String × List (String × ApiDocsModel)), l₁.Perm l₂ →
      (l₁.map Prod.fst).Nodup →
      render_interfaces (mapOfList l₁) = render_interfaces (mapOfList l₂)) :=
  ⟨fun _ => rfl, fun _ _ hp h => by rw [mapOfList_perm_eq hp h]⟩

/-- Witness for C9: two insertion orders of the same two-model catalog. -/
theorem c9_witness :
    ([("a", ([] : List (String × ApiDocsModel))), ("b", [])].Perm
      [("b", []), ("a", [])]) ∧
    render_interfaces (mapOfList [("a", ([] : List (String × ApiDocsModel))),
      ("b", [])]) = render_interfaces (mapOfList [("b", []), ("a", [])]) := by
  have hp : ([("a", ([] : List (String × ApiDocsModel))), ("b", [])].Perm
      [("b", []), ("a", [])]) := List.Perm.swap _ _ _
  exact ⟨hp, c9_deterministic.2 _ _ hp (by decide)⟩
